import Mathlib

/-!
Verification of the frigate-snap-sync upload-orchestration core.

This file gives a shallow embedding, in Lean 4, of the parts of the
frigate-snap-sync repository that the verified properties talk about:

* the per-camera enable state (`src/sync-system/src/state.rs`),
* the snapshot/review dispatch condition
  (`src/sync-system/src/system/mod.rs`),
* the review-with-clip naming discipline
  (`.../recording_upload_handler/task/file_upload/review_with_clip.rs`),
* the multi-destination retry primitive
  (`src/sync-system/src/system/common/file_upload.rs`),
* the single-recording upload task event loop
  (`src/sync-system/src/system/recording_upload_task/task/mod.rs`),
* the recordings task handler
  (`src/sync-system/src/system/recording_upload_handler/mod.rs`),
* the destination descriptor printer and its inverse
  (`src/file-sender/src/path_descriptor.rs`),
* the pure path simplifier (`src/file-sender/src/store_sftp/blocking.rs`),
* the review upload state machine
  (`.../recording_upload_handler/task/file_upload/mod.rs`),
* the HTTP client's clip validation (`src/frigate-api-caller/src/lib.rs`).

Rust strings are modelled as `List Char` where their contents are
inspected, and as Lean `String` where they are only carried around.
Asynchronous effects (channel receives, task joins, retry timers) are
modelled as explicit event lists consumed by the embedded event loops,
and fallible environment calls (API calls, destination operations) as
boolean or `Except` valued oracles passed in as arguments.
-/

namespace FrigateSnapSync

/-! ## Per-camera state, from `src/sync-system/src/state.rs`

`CamerasState` in the source holds two `HashMap<String, bool>`.  The maps
are modelled as association lists where an insert prepends its pair and a
lookup takes the first match, which realises the `HashMap` overwrite
semantics. -/

/-- `DEFAULT_CAMERA_RECORDINGS_STATE` from `state.rs`. -/
def DEFAULT_CAMERA_RECORDINGS_STATE : Bool := false

/-- `DEFAULT_CAMERA_SNAPSHOTS_STATE` from `state.rs`. -/
def DEFAULT_CAMERA_SNAPSHOTS_STATE : Bool := false

/-- The `CamerasState` struct from `state.rs`. -/
structure CamerasState where
  camerasRecordingsState : List (String × Bool)
  camerasSnapshotsState : List (String × Bool)
deriving DecidableEq

/-- `CamerasState::default()`: both maps empty. -/
def camerasStateDefault : CamerasState := ⟨[], []⟩

/-- `CamerasState::camera_recordings_state`: lookup with default `false`. -/
def CamerasState.cameraRecordingsState (st : CamerasState) (cameraName : String) : Bool :=
  (st.camerasRecordingsState.lookup cameraName).getD DEFAULT_CAMERA_RECORDINGS_STATE

/-- `CamerasState::camera_snapshots_state`: lookup with default `false`. -/
def CamerasState.cameraSnapshotsState (st : CamerasState) (cameraName : String) : Bool :=
  (st.camerasSnapshotsState.lookup cameraName).getD DEFAULT_CAMERA_SNAPSHOTS_STATE

/-- `CamerasState::update_recordings_state`: `HashMap::insert`. -/
def CamerasState.updateRecordingsState (st : CamerasState) (cameraName : String) (value : Bool) :
    CamerasState :=
  { st with camerasRecordingsState := (cameraName, value) :: st.camerasRecordingsState }

/-- `CamerasState::update_snapshotsState`: `HashMap::insert`. -/
def CamerasState.updateSnapshotsState (st : CamerasState) (cameraName : String) (value : Bool) :
    CamerasState :=
  { st with camerasSnapshotsState := (cameraName, value) :: st.camerasSnapshotsState }

/-! ## Snapshot/review dispatch, from `src/sync-system/src/system/mod.rs`

`SyncSystem::handle_snapshot_payload` forwards the snapshot to the
snapshots task handler when and only when the `if` condition
`self.cameras_state.camera_snapshots_state(&snapshot.camera_label)` holds;
otherwise it drops it with a debug log.  The condition is the whole
decision: no other data (in particular no NVR uptime) enters it.
`handle_review_payload` is symmetric with the recordings map. -/

/-- The dispatch condition of `SyncSystem::handle_snapshot_payload`
(`system/mod.rs` lines 254-282): forward iff the snapshots flag of
`snapshot.camera_label` is set. -/
def handleSnapshotForwards (st : CamerasState) (cameraLabel : String) : Bool :=
  st.cameraSnapshotsState cameraLabel

/-- The dispatch condition of `SyncSystem::handle_review_payload`
(`system/mod.rs` lines 284-311): forward iff the recordings flag of
`review.camera_name()` is set. -/
def handleReviewForwards (st : CamerasState) (cameraName : String) : Bool :=
  st.cameraRecordingsState cameraName

/-- Modelled from the spec: the startup-delay gate of section 4.H, which is
absent from the `SyncSystem` in `src/` (the crate's own tests in
`system/tests.rs` mock `stats()`/uptime and drive a 7-argument
`SyncSystem::new` that does not exist in `src/`; `FrigateApiConfig` in
`src/frigate-api-caller/src/config.rs` declares `delay_after_startup` as
"Uptime of Frigate to wait for, after which uploads can happen" but nothing
in `src/` reads it).  The gate passes when the NVR uptime is at least
`delay_after_startup`; both are in whole seconds here. -/
def specUptimeGatePassed (uptimeSecs delayAfterStartupSecs : Nat) : Bool :=
  delayAfterStartupSecs ≤ uptimeSecs

/-- Modelled from the spec: the dispatch of section 4.H, sentence
"`Snapshot`: if snapshot-enabled for `camera_label` **and** uptime gate
passed → send to E; else drop with debug log". -/
def specSnapshotDispatch (uptimeSecs delayAfterStartupSecs : Nat) (st : CamerasState)
    (cameraLabel : String) : Bool :=
  st.cameraSnapshotsState cameraLabel && specUptimeGatePassed uptimeSecs delayAfterStartupSecs

/-- A state in which only camera `"camX"` has snapshots enabled, reached by
the state-change event `CameraSnapshotsState ("camX", true)`. -/
def c1FailingState : CamerasState :=
  camerasStateDefault.updateSnapshotsState "camX" true

/-! ## Clip validation, from `src/frigate-api-caller/src/lib.rs`

The response body of the `clip.mp4` endpoint is a byte string, modelled as
`List Nat`. -/

/-- `is_valid_mp4` (`lib.rs` lines 154-157): `data.len() > 11 &&
&data[4..8] == b"ftyp"`.  The bytes of `b"ftyp"` are 102, 116, 121, 112. -/
def isValidMp4 (data : List Nat) : Bool :=
  decide (data.length > 11) && decide ((data.drop 4).take 4 = [102, 116, 121, 112])

/-- The post-receive logic of `FrigateApiClient::recording_clip`
(`lib.rs` lines 107-142) as a function of the received body: reject
non-MP4 bodies, return `Ok(None)` for an empty body, otherwise return the
body. -/
def recordingClipCheck (body : List Nat) : Except String (Option (List Nat)) :=
  if !isValidMp4 body then
    Except.error "The file returned in `recording_clip` API call is not a valid MP4 file."
  else if body.isEmpty then
    Except.ok none
  else
    Except.ok (some body)

/-! ## Review naming, from
`src/sync-system/src/system/recording_upload_handler/task/file_upload/review_with_clip.rs`

`ReviewWithClip` holds a review (`camera_name`, `id`, `start_time`, ...),
the clip bytes and the `alternative_upload` flag.  The two chrono
formatters that the source applies (`%Y-%m-%d_%H-%M-%S%z` on
`chrono::Local::now()` in `file_name_impl`, and `%Y-%m-%d` on the review's
`start_time` in `upload_dir` via `Time::as_local_time_in_dir_foramt`) are
abstracted as functions out of an abstract instant type `I`; the source
samples `chrono::Local::now()` inside each call of `file_name_impl`, so the
embedded functions take the sampled instant `now` as an argument.
`PathBuf::join` of the non-empty relative components used here is string
concatenation with `"/"`. -/

/-- The fields of `ReviewWithClip` (with the review flattened to the
`ReviewProps` accessors the file uses), over an abstract instant type. -/
structure ReviewWithClip (I : Type) where
  cameraName : String
  reviewId : String
  startTime : I
  clip : List Nat
  alternativeUpload : Bool

/-- `ReviewWithClip::alternative_name_suffix`: `"-1"` iff
`alternative_upload != flip` (the source comments that `!=` is used as an
XOR). -/
def alternativeNameSuffix {I : Type} (r : ReviewWithClip I) (flip : Bool) : String :=
  if r.alternativeUpload != flip then "-1" else "-0"

/-- `ReviewWithClip::file_name_impl`: `RecordingClip-<camera>-<datetime><suffix>.mp4`
where `<datetime>` formats the sampled `now`. -/
def fileNameImpl {I : Type} (fmtLocalDateTime : I → String) (now : I) (r : ReviewWithClip I)
    (alternative : Bool) : String :=
  "RecordingClip-" ++ r.cameraName ++ "-" ++ fmtLocalDateTime now
    ++ alternativeNameSuffix r alternative ++ ".mp4"

/-- `<ReviewWithClip as UploadableFile>::upload_dir`: the date directory of
the review's `start_time`. -/
def uploadDir {I : Type} (fmtLocalDateDir : I → String) (r : ReviewWithClip I) : String :=
  fmtLocalDateDir r.startTime

/-- `<ReviewWithClip as UploadableFile>::file_name` = `file_name_impl(false)`. -/
def fileName {I : Type} (fmtLocalDateTime : I → String) (now : I) (r : ReviewWithClip I) :
    String :=
  fileNameImpl fmtLocalDateTime now r false

/-- `UploadableFile::full_upload_path` = `upload_dir().join(file_name())`. -/
def fullUploadPath {I : Type} (fmtLocalDateDir fmtLocalDateTime : I → String) (now : I)
    (r : ReviewWithClip I) : String :=
  uploadDir fmtLocalDateDir r ++ "/" ++ fileName fmtLocalDateTime now r

/-- `ReviewWithClip::alternative_path` = `upload_dir().join(file_name_impl(true))`. -/
def alternativePath {I : Type} (fmtLocalDateDir fmtLocalDateTime : I → String) (now : I)
    (r : ReviewWithClip I) : String :=
  uploadDir fmtLocalDateDir r ++ "/" ++ fileNameImpl fmtLocalDateTime now r true

/-! ## The single-recording upload task event loop, from
`src/sync-system/src/system/recording_upload_task/task/mod.rs`

The task state keeps the pieces the loop reads and writes:
`current_review` (only its `type_field` matters to the loop),
`alternative_upload` and `retry_attempt`.  The outcome of one run of the
current upload process (`ReviewUpload::run`) is an oracle boolean
(`true` = `Ok(())`).  One `tokio::select!` iteration of
`SingleRecordingUploadTask::start` consumes one `TaskLoopEvent`. -/

/-- `TypeField` from `src/mqtt-handler/src/types/reviews/payload.rs`. -/
inductive TypeField
  | New
  | Update
  | End
deriving DecidableEq

/-- `UploadConclusion` from `recording_upload_task/task/mod.rs`. -/
inductive UploadConclusion
  | NotDone
  | Done
deriving DecidableEq

/-- The mutable task state read and written by the event loop. -/
structure TaskState where
  currentReviewType : TypeField
  alternativeUpload : Bool
  retryAttempt : Nat
deriving DecidableEq

/-- `SingleRecordingUploadTask::run_upload` (lines 192-217): on `Ok(())`
flip `alternative_upload` and conclude `Done` iff the current review's
type is `End`; on error conclude `NotDone` with the state unchanged. -/
def runUpload (st : TaskState) (uploadOk : Bool) : TaskState × UploadConclusion :=
  if uploadOk then
    let st' := { st with alternativeUpload := !st.alternativeUpload }
    if st.currentReviewType = TypeField.End then (st', UploadConclusion.Done)
    else (st', UploadConclusion.NotDone)
  else
    (st, UploadConclusion.NotDone)

/-- One `tokio::select!` arm firing in the loop of
`SingleRecordingUploadTask::start` (lines 120-157): either a review
arrives on the channel (its type and the outcome of the fresh upload run),
or the retry deadline fires (with the outcome of the re-run). -/
inductive TaskLoopEvent
  | reviewArrived (reviewType : TypeField) (uploadOk : Bool)
  | retryTimerFired (uploadOk : Bool)

/-- The effect of one loop iteration: continue with a new state, or exit
the loop with a final conclusion. -/
inductive TaskLoopStep
  | continueLoop (st : TaskState)
  | exitLoop (st : TaskState) (conclusion : UploadConclusion)
deriving DecidableEq

/-- The body of the event loop of `SingleRecordingUploadTask::start`
(lines 120-157).  A review arrival replaces `current_review`
(`on_received_review`) and runs the fresh upload process; the timer arm
first checks `retry_attempt >= max_retry_attempts` and exits `NotDone`,
otherwise re-runs the upload.  In both arms the conclusion is matched:
`Done` breaks the loop, `NotDone` increments `retry_attempt`. -/
def taskLoopStep (maxRetryAttempts : Nat) (st : TaskState) (ev : TaskLoopEvent) : TaskLoopStep :=
  match ev with
  | TaskLoopEvent.reviewArrived reviewType uploadOk =>
    let st1 := { st with currentReviewType := reviewType }
    let res := runUpload st1 uploadOk
    match res.2 with
    | UploadConclusion.Done => TaskLoopStep.exitLoop res.1 UploadConclusion.Done
    | UploadConclusion.NotDone =>
      TaskLoopStep.continueLoop { res.1 with retryAttempt := res.1.retryAttempt + 1 }
  | TaskLoopEvent.retryTimerFired uploadOk =>
    if st.retryAttempt ≥ maxRetryAttempts then
      TaskLoopStep.exitLoop st UploadConclusion.NotDone
    else
      let res := runUpload st uploadOk
      match res.2 with
      | UploadConclusion.Done => TaskLoopStep.exitLoop res.1 UploadConclusion.Done
      | UploadConclusion.NotDone =>
        TaskLoopStep.continueLoop { res.1 with retryAttempt := res.1.retryAttempt + 1 }

/-! ## Destination descriptors, from `src/file-sender/src/path_descriptor.rs`

Rust `String` and `PathBuf` contents are modelled as `List Char` (both
hold the same text here; `PathBuf` equality on identical text is
equality).  `str::trim` is modelled with `Char.isWhitespace`, which agrees
with Rust's definition on the ASCII whitespace relevant here, and
`str::to_lowercase` with ASCII lowercasing, which agrees with Rust on the
ASCII input the parser feeds it (keys are checked to be ASCII first). -/

/-- `IdentitySource` from `path_descriptor.rs`. -/
inductive IdentitySource
  | InMemory (secret : List Char)
  | OnDisk (path : List Char)
deriving DecidableEq

/-- `PathDescriptor` from `path_descriptor.rs`. -/
inductive PathDescriptor
  | Local (path : List Char)
  | Sftp (username remoteAddress remotePath : List Char) (identity : IdentitySource)
deriving DecidableEq

/-- `IdentitySource::display`: inline material is always redacted. -/
def identityDisplay : IdentitySource → List Char
  | IdentitySource.InMemory _ => "<in-memory>".data
  | IdentitySource.OnDisk p => p

/-- `impl Display for PathDescriptor` (lines 79-97). -/
def displayPathDescriptor : PathDescriptor → List Char
  | PathDescriptor.Local p => "local:path=".data ++ p
  | PathDescriptor.Sftp u h rp i =>
    "sftp:username=".data ++ u ++ ";host=".data ++ h ++ ";remote-path=".data ++ rp
      ++ ";identity=".data ++ identityDisplay i

/-- `str::split_once(sep)`: split at the first occurrence of `sep`. -/
def splitOnceList (sep : Char) : List Char → Option (List Char × List Char)
  | [] => none
  | c :: rest =>
    if c = sep then some ([], rest)
    else
      match splitOnceList sep rest with
      | none => none
      | some (a, b) => some (c :: a, b)

/-- `str::split(sep)`: all pieces, keeping empty ones, at least one piece. -/
def splitList (sep : Char) : List Char → List (List Char)
  | [] => [[]]
  | c :: rest =>
    if c = sep then [] :: splitList sep rest
    else
      match splitList sep rest with
      | [] => [[c]]
      | p :: ps => (c :: p) :: ps

/-- `str::trim` on the left. -/
def trimLeftList (l : List Char) : List Char :=
  l.dropWhile Char.isWhitespace

/-- `str::trim` on the right. -/
def trimRightList (l : List Char) : List Char :=
  (l.reverse.dropWhile Char.isWhitespace).reverse

/-- `str::trim`. -/
def trimList (l : List Char) : List Char :=
  trimRightList (trimLeftList l)

/-- `str::is_ascii`. -/
def isAsciiList (l : List Char) : Bool :=
  l.all (fun c => c.toNat ≤ 127)

/-- ASCII lowercasing of one character. -/
def asciiLowerChar (c : Char) : Char :=
  if 'A' ≤ c ∧ c ≤ 'Z' then Char.ofNat (c.toNat + 32) else c

/-- `str::to_lowercase`, on the ASCII inputs this parser feeds it. -/
def asciiLowerList (l : List Char) : List Char :=
  l.map asciiLowerChar

/-- The per-part loop of `parse_key_vals_string` (lines 161-200): trim the
part, split it into `key=value` at the first `=`, require an ASCII key,
lowercase it, reject duplicates and keys outside the allowed set.  The
`BTreeMap` is modelled as the association list of accepted pairs. -/
def parseKeyValsLoop (allowedKeys : List (List Char)) :
    List (List Char) → List (List Char × List Char) →
    Except (List Char) (List (List Char × List Char))
  | [], acc => Except.ok acc
  | part :: rest, acc =>
    match splitOnceList '=' (trimList part) with
    | none =>
      Except.error ("Invalid format. Expected key=value. Found: ".data ++ trimList part)
    | some (key, value) =>
      if !isAsciiList key then
        Except.error ("Keys for path descriptor must be ascii. Found invalid key: ".data ++ key)
      else if (acc.map Prod.fst).contains (asciiLowerList key) then
        Except.error ("Duplicate key: ".data ++ trimList part)
      else if !allowedKeys.contains (asciiLowerList key) then
        Except.error ("Unexpected key for descriptor. Key: ".data ++ asciiLowerList key)
      else
        parseKeyValsLoop allowedKeys rest (acc ++ [(asciiLowerList key, value)])

/-- `parse_key_vals_string` (lines 161-212): run the part loop over the
`;`-separated parts, then require every required key to be present (first
missing one reported). -/
def parseKeyValsString (input : List Char) (requiredKeys optionalKeys : List (List Char)) :
    Except (List Char) (List (List Char × List Char)) :=
  match parseKeyValsLoop (requiredKeys ++ optionalKeys) (splitList ';' input) [] with
  | Except.error e => Except.error e
  | Except.ok keyVals =>
    match requiredKeys.find? (fun k => !(keyVals.map Prod.fst).contains k) with
    | some k => Except.error ("Required key for descriptor not found: ".data ++ k)
    | none => Except.ok keyVals

/-- `str::parse::<u16>`: optional leading `+`, then one or more ASCII
digits, value at most 65535. -/
def parseU16 (s : List Char) : Option Nat :=
  let body :=
    match s with
    | '+' :: rest => rest
    | _ => s
  if body.isEmpty then none
  else if body.all Char.isDigit then
    let v := body.foldl (fun acc c => acc * 10 + (c.toNat - '0'.toNat)) 0
    if v ≤ 65535 then some v else none
  else none

/-- The required keys of the `sftp` scheme. -/
def sftpRequiredKeys : List (List Char) :=
  ["username".data, "host".data, "remote-path".data, "identity".data]

/-- The scheme dispatch of `impl FromStr for PathDescriptor` (lines
107-157): lowercase the scheme and dispatch on it.  `local` needs the
single key `path`; `sftp` needs `username`, `host`, `remote-path`,
`identity`, validates the port after the first `:` of `host` (if any) as
a `u16`, and always stores the identity as `OnDisk`. -/
def fromStrScheme (destType destData : List Char) : Except (List Char) PathDescriptor :=
  if asciiLowerList destType = "local".data then
    match parseKeyValsString destData ["path".data] [] with
    | Except.error e => Except.error e
    | Except.ok keyVals =>
      match keyVals.lookup "path".data with
      | some path => Except.ok (PathDescriptor.Local path)
      | none => Except.error "Must exist since verified in parser".data
  else if asciiLowerList destType = "sftp".data then
    match parseKeyValsString destData sftpRequiredKeys [] with
    | Except.error e => Except.error e
    | Except.ok keyVals =>
      match keyVals.lookup "username".data, keyVals.lookup "host".data,
          keyVals.lookup "remote-path".data, keyVals.lookup "identity".data with
      | some username, some host, some remotePath, some identity =>
        match splitOnceList ':' host with
        | some (_, port) =>
          match parseU16 port with
          | some _ =>
            Except.ok
              (PathDescriptor.Sftp username host remotePath (IdentitySource.OnDisk identity))
          | none => Except.error ("Failed to parse port: ".data ++ port)
        | none =>
          Except.ok
            (PathDescriptor.Sftp username host remotePath (IdentitySource.OnDisk identity))
      | _, _, _, _ => Except.error "Must exist from parser".data
  else
    Except.error "Unknown path descriptor prefix used".data

/-- `impl FromStr for PathDescriptor` (lines 99-159): split the scheme off
at the first `:`, then dispatch on it. -/
def fromStr (input : List Char) : Except (List Char) PathDescriptor :=
  match splitOnceList ':' input with
  | none => Except.error "Path descriptor does not contain the path type before the colon".data
  | some (destType, destData) => fromStrScheme destType destData

/-- The condition under which the claim's round-trip can hold at all for
the identity: `IdentitySource::display` redacts inline material, so only
on-disk identities can survive a round trip. -/
def descriptorIdentityOnDisk : PathDescriptor → Prop
  | PathDescriptor.Local _ => True
  | PathDescriptor.Sftp _ _ _ (IdentitySource.OnDisk _) => True
  | PathDescriptor.Sftp _ _ _ (IdentitySource.InMemory _) => False

/-- A field value that survives the parser's `;`-splitting and trimming:
it contains no `;` and has no trailing whitespace. -/
def cleanField (s : List Char) : Prop :=
  ';' ∉ s ∧ trimRightList s = s

/-- Every displayed field of the descriptor is clean. -/
def descriptorFieldsClean : PathDescriptor → Prop
  | PathDescriptor.Local p => cleanField p
  | PathDescriptor.Sftp u h rp ident =>
    cleanField u ∧ cleanField h ∧ cleanField rp ∧ cleanField (identityDisplay ident)

/-- If the host carries a `:`, what follows the first `:` parses as a
`u16` port. -/
def descriptorHostPortOk : PathDescriptor → Prop
  | PathDescriptor.Local _ => True
  | PathDescriptor.Sftp _ h _ _ =>
    ∀ hostName port, splitOnceList ':' h = some (hostName, port) →
      (parseU16 port).isSome = true

/-! ## The multi-destination retry primitive, from
`src/sync-system/src/system/common/file_upload.rs`

`remote_file_op` keeps a list `remaining_descriptors`; each attempt round
first instantiates a destination per remaining descriptor
(`make_file_senders`, with failures staying pending for the next round),
then runs the operation on each successfully opened destination in order,
pushing failures back onto the pending list.  Destination instantiation
and per-destination operation success are oracles indexed by the attempt
number.  `init()` failures inside `make_file_senders` are only logged in
the source, so they are absorbed into the operation oracle. -/

/-- One attempt round on the pending list: the descriptors that failed to
open (in order), followed by the opened ones whose operation failed (in
order). -/
def roundStep (openOk opOk : PathDescriptor → Bool) (pending : List PathDescriptor) :
    List PathDescriptor :=
  pending.filter (fun d => !openOk d) ++ (pending.filter openOk).filter (fun d => !opOk d)

/-- The `for attempt_number in 0..max_attempt_count` loop of
`remote_file_op` (lines 32-63), with its early `break` on an empty pending
list; returns the final `remaining_descriptors`. -/
def remoteFileOpRounds (openOk opOk : Nat → PathDescriptor → Bool) :
    Nat → Nat → List PathDescriptor → List PathDescriptor
  | _, 0, pending => pending
  | attemptNumber, fuel + 1, pending =>
    if pending.isEmpty then pending
    else
      remoteFileOpRounds openOk opOk (attemptNumber + 1) fuel
        (roundStep (openOk attemptNumber) (opOk attemptNumber) pending)

/-- The number of destination operations the loop invokes (one per opened
destination per round). -/
def remoteFileOpInvocations (openOk opOk : Nat → PathDescriptor → Bool) :
    Nat → Nat → List PathDescriptor → Nat
  | _, 0, _ => 0
  | attemptNumber, fuel + 1, pending =>
    if pending.isEmpty then 0
    else
      (pending.filter (openOk attemptNumber)).length
        + remoteFileOpInvocations openOk opOk (attemptNumber + 1) fuel
            (roundStep (openOk attemptNumber) (opOk attemptNumber) pending)

/-- The failure message of `remote_file_op` (lines 73-82): it lists the
still-remaining descriptors in display form, joined by `", "`. -/
def remoteFileOpErrMsg (opName fileDesc : List Char) (remaining : List PathDescriptor) :
    List Char :=
  "Error: Reaching the end of file op '".data ++ opName ++ "' code for file `".data ++ fileDesc
    ++ "` with ".data ++ Nat.toDigits 10 remaining.length
    ++ " destination(s) having received the file. These are: '".data
    ++ List.intercalate ", ".data (remaining.map displayPathDescriptor) ++ "'".data

/-- `remote_file_op` (lines 20-86): run the rounds, then succeed iff
nothing remains pending, otherwise report the remaining descriptors. -/
def remoteFileOp (openOk opOk : Nat → PathDescriptor → Bool) (opName fileDesc : List Char)
    (pathDescriptors : List PathDescriptor) (maxAttemptCount : Nat) :
    Except (List Char) Unit :=
  let remaining := remoteFileOpRounds openOk opOk 0 maxAttemptCount pathDescriptors
  if remaining.isEmpty then Except.ok ()
  else Except.error (remoteFileOpErrMsg opName fileDesc remaining)

/-- The attempt rounds without the early break: the reference iteration
used to state "the pending set became empty within `k` rounds". -/
def iterRounds (openOk opOk : Nat → PathDescriptor → Bool) :
    Nat → Nat → List PathDescriptor → List PathDescriptor
  | _, 0, pending => pending
  | attemptNumber, fuel + 1, pending =>
    iterRounds openOk opOk (attemptNumber + 1) fuel
      (roundStep (openOk attemptNumber) (opOk attemptNumber) pending)

/-! ## The recordings task handler, from
`src/sync-system/src/system/recording_upload_handler/mod.rs`

The handler owns `running_tasks` (a `FuturesUnordered` of spawned task
join handles; each task resolves to its review id) and
`tasks_communicators` (a `HashMap` from review id to the per-task review
channel).  Both are modelled by the lists of review ids they hold, in
insertion order; the map's senders themselves carry no state relevant
here.  The `tokio::select!` loop of `run` consumes `HandlerEvent`s: a
received command, or `running_tasks.next()` yielding a completed task.
Task joins are modelled for normally terminating tasks (`Ok(id)`); a
panicking task (`Err` join, logged as critical in the source) is outside
the embedded semantics. -/

/-- The handler state read and written by the `run` loop. -/
structure HandlerState where
  stopped : Bool
  tasksCommunicators : List String
  runningTasks : List String
deriving DecidableEq

/-- The state `RecordingsTaskHandler::new` builds: not stopped, no tasks. -/
def initialHandlerState : HandlerState := ⟨false, [], []⟩

/-- `RecordingsTaskHandler::register_review_update` (lines 121-137): if
the review id is not in `tasks_communicators`, launch a task
(`launch_upload_task` pushes its handle onto `running_tasks`) and insert
its sender; then send the review to the (existing or new) task's
channel. -/
def registerReviewUpdate (st : HandlerState) (id : String) : HandlerState :=
  if id ∈ st.tasksCommunicators then st
  else
    { st with
      tasksCommunicators := st.tasksCommunicators ++ [id],
      runningTasks := st.runningTasks ++ [id] }

/-- A task completing: `running_tasks.next()` removes the finished handle,
and `on_task_joined` (lines 172-184) evicts the id from
`tasks_communicators`. -/
def onTaskCompletion (st : HandlerState) (id : String) : HandlerState :=
  { st with
    runningTasks := st.runningTasks.erase id,
    tasksCommunicators := st.tasksCommunicators.erase id }

/-- One firing of the `tokio::select!` in `RecordingsTaskHandler::run`. -/
inductive HandlerEvent
  | cmdTask (id : String)
  | cmdGetTaskCount
  | cmdStop
  | taskCompleted (id : String)

/-- The `run` loop (lines 83-119), driven by a finite event trace.  The
loop head is `while !self.stopped`; the `Stop` arm sets the flag and
`break`s only when `running_tasks` is already empty — when tasks remain it
falls through to the loop head, whose condition is now false, so the loop
exits there instead (the recursive call returns at its `stopped` guard).
The task-completion arm `break`s when the handler is stopped and the last
task just finished. -/
def handlerRun (st : HandlerState) : List HandlerEvent → HandlerState
  | [] => st
  | ev :: rest =>
    if st.stopped then st
    else
      match ev with
      | HandlerEvent.cmdStop =>
        let st' := { st with stopped := true }
        if st'.runningTasks.isEmpty then st'
        else handlerRun st' rest
      | HandlerEvent.cmdTask id => handlerRun (registerReviewUpdate st id) rest
      | HandlerEvent.cmdGetTaskCount => handlerRun st rest
      | HandlerEvent.taskCompleted id =>
        let st' := onTaskCompletion st id
        if st'.runningTasks.isEmpty && st'.stopped then st'
        else handlerRun st' rest

/-- The handler invariant: the tracking map holds exactly the ids of the
live tasks (same list), and no id occurs twice. -/
def handlerInv (st : HandlerState) : Prop :=
  st.tasksCommunicators = st.runningTasks ∧ st.runningTasks.Nodup

/-! ## The pure path simplifier, from
`src/file-sender/src/store_sftp/blocking.rs`

A path is modelled as its list of `std::path::Component`s.  On the POSIX
paths this crate handles, `Prefix` components do not occur, so the
component type has the remaining four constructors.  `Vec::push` on
`result` appends; the `stack` is modelled with its top at the head, so the
final `for comp in stack` push-out appends `stack.reverse`.
`Path::is_absolute` holds exactly when the component list starts with
`RootDir`. -/

/-- `std::path::Component`, without the Windows-only `Prefix`. -/
inductive PathComponent
  | RootDir
  | CurDir
  | ParentDir
  | Normal (name : String)
deriving DecidableEq

/-- `Path::is_absolute` on POSIX: the path has a root. -/
def isAbsoluteComps : List PathComponent → Bool
  | PathComponent.RootDir :: _ => true
  | _ => false

/-- Discriminates `Component::Normal`, as the source's
`matches!(last, std::path::Component::Normal(_))`. -/
def isNormalComp : PathComponent → Bool
  | PathComponent.Normal _ => true
  | _ => false

/-- The component loop of `simplify_virtual_path` (lines 346-370), carried
over `(result, stack)`; `isAbs` is the pre-computed `path.is_absolute()`.
`RootDir` is pushed to `result` and clears the stack; `CurDir` is skipped;
`ParentDir` pops a `Normal` off the stack (`matches!(last, Normal(_))`),
while against a non-`Normal` popped component or an empty stack it is
itself pushed only on relative paths; `Normal` is pushed. -/
def svpLoop (isAbs : Bool) :
    List PathComponent → List PathComponent → List PathComponent →
    List PathComponent × List PathComponent
  | result, stack, [] => (result, stack)
  | result, stack, comp :: rest =>
    match comp, stack with
    | PathComponent.RootDir, _ => svpLoop isAbs (result ++ [PathComponent.RootDir]) [] rest
    | PathComponent.CurDir, _ => svpLoop isAbs result stack rest
    | PathComponent.ParentDir, [] =>
      svpLoop isAbs result (if !isAbs then [PathComponent.ParentDir] else []) rest
    | PathComponent.ParentDir, PathComponent.Normal _ :: stackRest =>
      svpLoop isAbs result stackRest rest
    | PathComponent.ParentDir, last :: stackRest =>
      svpLoop isAbs result
        (if !isAbs then PathComponent.ParentDir :: (last :: stackRest) else last :: stackRest)
        rest
    | PathComponent.Normal n, _ => svpLoop isAbs result (PathComponent.Normal n :: stack) rest

/-- `simplify_virtual_path` (lines 341-377): run the loop on empty
`result` and `stack`, then push the remaining stack out onto `result`. -/
def simplifyVirtualPath (comps : List PathComponent) : List PathComponent :=
  let isAbs := isAbsoluteComps comps
  let r := svpLoop isAbs [] [] comps
  r.1 ++ r.2.reverse

/-! ## The review upload state machine, from
`src/sync-system/src/system/recording_upload_handler/task/file_upload/mod.rs`

`ReviewUpload::start` walks `Start → GettingVideoFromAPI → UploadToStore →
DeleteTheAlternative → Done`, returning at the first failing step.  The
outcomes of the four fallible environment calls (API construction, clip
retrieval, the `remote_file_op` for the upload, the `remote_file_op` for
the alternative deletion) are supplied as an environment record. -/

/-- `ReviewUploadError` from `file_upload/mod.rs` (lines 20-34). -/
inductive ReviewUploadError
  | APIConstructionFailed (msg : String)
  | ClipRetrievalError (msg : String)
  | EmptyVideoReturned (id : String)
  | RecordingUpload (msg : String)
  | DeletingAltFile (msg : String)
deriving DecidableEq

/-- The outcomes of the environment calls made by one run of
`ReviewUpload::start`. -/
structure ReviewUploadEnv where
  apiConstruction : Except String Unit
  clipResult : Except String (Option (List Nat))
  uploadToStoreResult : Except String Unit
  deleteAlternativeResult : Except String Unit

/-- `ReviewUpload::start` (lines 89-151).  Note the two `map_err`s in the
source: the `UploadToStore` arm (lines 122-134) wraps its `remote_file_op`
failure in `ReviewUploadError::DeletingAltFile`, and the
`DeleteTheAlternative` arm (lines 135-147) wraps its failure in
`ReviewUploadError::RecordingUpload`. -/
def reviewUploadStart (reviewId : String) (env : ReviewUploadEnv) :
    Except ReviewUploadError Unit :=
  match env.apiConstruction with
  | Except.error e => Except.error (ReviewUploadError.APIConstructionFailed e)
  | Except.ok () =>
    match env.clipResult with
    | Except.error e => Except.error (ReviewUploadError.ClipRetrievalError e)
    | Except.ok none => Except.error (ReviewUploadError.EmptyVideoReturned reviewId)
    | Except.ok (some _) =>
      match env.uploadToStoreResult with
      | Except.error e => Except.error (ReviewUploadError.DeletingAltFile e)
      | Except.ok () =>
        match env.deleteAlternativeResult with
        | Except.error e => Except.error (ReviewUploadError.RecordingUpload e)
        | Except.ok () => Except.ok ()

/-- Whether a run outcome is the `RecordingUpload` error kind. -/
def isRecordingUploadError : Except ReviewUploadError Unit → Bool
  | Except.error (ReviewUploadError.RecordingUpload _) => true
  | _ => false

/-- An environment in which the API calls succeed and the upload-to-store
step fails. -/
def c9FailingEnv : ReviewUploadEnv :=
  { apiConstruction := Except.ok ()
    clipResult := Except.ok (some [0, 0, 0, 24, 102, 116, 121, 112, 0, 0, 0, 0])
    uploadToStoreResult := Except.error "upload to store failed"
    deleteAlternativeResult := Except.ok () }

end FrigateSnapSync

namespace FrigateSnapSync

/-! ## Theorems for C1 and C10 -/

/-- C1: the claim states that a snapshot is forwarded iff the per-camera
flag is set AND the NVR uptime gate has passed.  The dispatch in
`src/sync-system/src/system/mod.rs` tests only the flag: with snapshots
enabled for `"camX"` and uptime 10 s below a 60 s `delay_after_startup`,
the code forwards the snapshot while the specified dispatch (and the
crate's own uptime-gate test set-up) drops it.  The unflagged-camera
default (`false`) and the symmetric recordings flag are as claimed. -/
theorem c1_dispatch_ignores_uptime_gate :
    handleSnapshotForwards c1FailingState "camX" = true
    ∧ specSnapshotDispatch 10 60 c1FailingState "camX" = false
    ∧ CamerasState.cameraSnapshotsState camerasStateDefault "camY" = false
    ∧ handleReviewForwards c1FailingState "camX" = false := by
  refine ⟨rfl, by decide, rfl, rfl⟩

/-- C10: `recording_clip` never returns `Ok(None)`: a body of 11 or fewer
bytes, or one whose bytes `[4..8]` are not `"ftyp"`, is rejected with an
error; any body passing `is_valid_mp4` is returned as `Ok(Some(body))`
(such a body has more than 11 bytes, so the emptiness branch guarding
`Ok(None)` is unreachable, and the upload process's `EmptyVideoReturned`
failure cannot arise through this client). -/
theorem c10_recording_clip_never_ok_none (body : List Nat) :
    recordingClipCheck body =
      (if isValidMp4 body then Except.ok (some body)
       else Except.error "The file returned in `recording_clip` API call is not a valid MP4 file.")
    ∧ recordingClipCheck body ≠ Except.ok none
    ∧ (isValidMp4 body = true ↔
        11 < body.length ∧ (body.drop 4).take 4 = [102, 116, 121, 112]) := by
  refine ⟨?_, ?_, ?_⟩
  · unfold recordingClipCheck
    by_cases h : isValidMp4 body
    · have hne : body ≠ [] := by
        intro hnil
        rw [hnil] at h
        simp [isValidMp4] at h
      simp [h, hne]
    · simp [h]
  · unfold recordingClipCheck
    by_cases h : isValidMp4 body
    · have hne : body.isEmpty = false := by
        rcases body with _ | ⟨a, t⟩
        · simp [isValidMp4] at h
        · rfl
      simp [h, hne]
    · simp [h]
  · unfold isValidMp4
    constructor
    · intro h
      have h1 := (Bool.and_eq_true _ _).mp h
      exact ⟨by exact_mod_cast of_decide_eq_true h1.1, of_decide_eq_true h1.2⟩
    · intro ⟨h1, h2⟩
      exact (Bool.and_eq_true _ _).mpr ⟨decide_eq_true h1, decide_eq_true h2⟩

/-- C2: for every `ReviewWithClip` (any review, clip and
`alternative_upload` flag), with the clock sampled at the same instant
`now` for both calls, the upload path `full_upload_path()` and
`alternative_path()` share the date directory, the `RecordingClip` prefix,
the camera name and the timestamp, and differ only in the trailing suffix
before `.mp4`; the suffix is `"-1"` iff `alternative_upload XOR alt`, with
`alt = false` for the upload name and `alt = true` for the alternative
path, so the two suffixes always differ. -/
theorem c2_alternating_name_discipline {I : Type} (fmtLocalDateDir fmtLocalDateTime : I → String)
    (now : I) (r : ReviewWithClip I) :
    fullUploadPath fmtLocalDateDir fmtLocalDateTime now r
      = uploadDir fmtLocalDateDir r ++ "/" ++ "RecordingClip-" ++ r.cameraName ++ "-"
          ++ fmtLocalDateTime now ++ alternativeNameSuffix r false ++ ".mp4"
    ∧ alternativePath fmtLocalDateDir fmtLocalDateTime now r
      = uploadDir fmtLocalDateDir r ++ "/" ++ "RecordingClip-" ++ r.cameraName ++ "-"
          ++ fmtLocalDateTime now ++ alternativeNameSuffix r true ++ ".mp4"
    ∧ (∀ alt : Bool, alternativeNameSuffix r alt
        = if xor r.alternativeUpload alt then "-1" else "-0")
    ∧ alternativeNameSuffix r false ≠ alternativeNameSuffix r true := by
  refine ⟨?_, ?_, ?_, ?_⟩
  · simp only [fullUploadPath, fileName, fileNameImpl, uploadDir, String.append_assoc]
  · simp only [alternativePath, fileNameImpl, uploadDir, String.append_assoc]
  · intro alt
    cases halt : r.alternativeUpload <;> cases alt <;> simp [alternativeNameSuffix, halt]
  · cases halt : r.alternativeUpload <;> simp [alternativeNameSuffix, halt]

/-- An attempt round on an empty pending list stays empty. -/
theorem roundStep_nil (openOk opOk : PathDescriptor → Bool) :
    roundStep openOk opOk [] = [] := rfl

/-- The break-free iteration keeps an empty pending list empty. -/
theorem iterRounds_nil (openOk opOk : Nat → PathDescriptor → Bool) (a f : Nat) :
    iterRounds openOk opOk a f [] = [] := by
  induction f generalizing a with
  | zero => rfl
  | succ f ih =>
    show iterRounds openOk opOk (a + 1) f (roundStep (openOk a) (opOk a) []) = []
    rw [roundStep_nil]
    exact ih (a + 1)

/-- The source loop (with its early break) computes the same final pending
list as the break-free iteration. -/
theorem remoteFileOpRounds_eq_iterRounds (openOk opOk : Nat → PathDescriptor → Bool)
    (f a : Nat) (p : List PathDescriptor) :
    remoteFileOpRounds openOk opOk a f p = iterRounds openOk opOk a f p := by
  induction f generalizing a p with
  | zero => rfl
  | succ f ih =>
    cases p with
    | nil =>
      show [] = iterRounds openOk opOk a (f + 1) []
      rw [iterRounds_nil]
    | cons d ds =>
      show remoteFileOpRounds openOk opOk (a + 1) f _ = iterRounds openOk opOk (a + 1) f _
      exact ih (a + 1) _

/-- Splitting the break-free iteration into two runs. -/
theorem iterRounds_add (openOk opOk : Nat → PathDescriptor → Bool) (m : Nat) :
    ∀ (n a : Nat) (p : List PathDescriptor),
      iterRounds openOk opOk a (m + n) p
        = iterRounds openOk opOk (a + m) n (iterRounds openOk opOk a m p) := by
  induction m with
  | zero => intro n a p; simp [iterRounds]
  | succ m ih =>
    intro n a p
    have h1 : m + 1 + n = (m + n) + 1 := by omega
    rw [h1]
    show iterRounds openOk opOk (a + 1) (m + n) (roundStep (openOk a) (opOk a) p) = _
    rw [ih n (a + 1) (roundStep (openOk a) (opOk a) p)]
    have h2 : a + 1 + m = a + (m + 1) := by omega
    rw [h2]
    rfl

/-- Unfolding `remote_file_op` past its `let`. -/
theorem remoteFileOp_eq_ite (openOk opOk : Nat → PathDescriptor → Bool)
    (opName fileDesc : List Char) (descs : List PathDescriptor) (maxAttemptCount : Nat) :
    remoteFileOp openOk opOk opName fileDesc descs maxAttemptCount
      = if (remoteFileOpRounds openOk opOk 0 maxAttemptCount descs).isEmpty
          then Except.ok ()
          else Except.error (remoteFileOpErrMsg opName fileDesc
                 (remoteFileOpRounds openOk opOk 0 maxAttemptCount descs)) := rfl

/-- C3: `remote_file_op` returns `Ok(())` iff the pending set becomes
empty within at most `max_attempt_count` rounds; otherwise the error
message is exactly the report listing the still-remaining descriptors (in
display form); and with `max_attempt_count = 0` and a non-empty descriptor
list it fails immediately, invoking no destination operation. -/
theorem c3_remote_file_op_success_iff_drained (openOk opOk : Nat → PathDescriptor → Bool)
    (opName fileDesc : List Char) (descs : List PathDescriptor) (maxAttemptCount : Nat) :
    (remoteFileOp openOk opOk opName fileDesc descs maxAttemptCount = Except.ok () ↔
      ∃ k ≤ maxAttemptCount, iterRounds openOk opOk 0 k descs = [])
    ∧ (∀ e, remoteFileOp openOk opOk opName fileDesc descs maxAttemptCount = Except.error e →
        remoteFileOpRounds openOk opOk 0 maxAttemptCount descs ≠ [] ∧
        e = remoteFileOpErrMsg opName fileDesc
              (remoteFileOpRounds openOk opOk 0 maxAttemptCount descs))
    ∧ (maxAttemptCount = 0 → descs ≠ [] →
        remoteFileOp openOk opOk opName fileDesc descs maxAttemptCount
          = Except.error (remoteFileOpErrMsg opName fileDesc descs)
        ∧ remoteFileOpInvocations openOk opOk 0 maxAttemptCount descs = 0) := by
  refine ⟨?_, ?_, ?_⟩
  · constructor
    · intro hok
      refine ⟨maxAttemptCount, le_refl _, ?_⟩
      rw [← remoteFileOpRounds_eq_iterRounds]
      by_contra hne
      have hepty : (remoteFileOpRounds openOk opOk 0 maxAttemptCount descs).isEmpty = false := by
        cases h : remoteFileOpRounds openOk opOk 0 maxAttemptCount descs with
        | nil => exact absurd h hne
        | cons d ds => rfl
      rw [remoteFileOp_eq_ite, hepty] at hok
      exact absurd hok (by simp)
    · rintro ⟨k, hk, hempty⟩
      have hmax : iterRounds openOk opOk 0 maxAttemptCount descs = [] := by
        have hsplit : maxAttemptCount = k + (maxAttemptCount - k) := by omega
        rw [hsplit, iterRounds_add openOk opOk k (maxAttemptCount - k) 0 descs, hempty,
          iterRounds_nil]
      rw [remoteFileOp_eq_ite, remoteFileOpRounds_eq_iterRounds, hmax]
      rfl
  · intro e herr
    rw [remoteFileOp_eq_ite] at herr
    cases h : remoteFileOpRounds openOk opOk 0 maxAttemptCount descs with
    | nil =>
      rw [h] at herr
      exact absurd herr (by simp)
    | cons d ds =>
      rw [h] at herr
      simp only [List.isEmpty_cons, if_neg] at herr
      refine ⟨by simp [h], ?_⟩
      cases herr
      rfl
  · intro hmax hne
    subst hmax
    constructor
    · rw [remoteFileOp_eq_ite]
      have h0 : remoteFileOpRounds openOk opOk 0 0 descs = descs := rfl
      rw [h0]
      have hepty : descs.isEmpty = false := by
        cases descs with
        | nil => exact absurd rfl hne
        | cons d ds => rfl
      rw [hepty]
      rfl
    · rfl

/-- C3, witness: with one local descriptor and no attempt rounds allowed,
the primitive fails immediately with the report listing that descriptor,
and invokes no destination operation. -/
theorem c3_witness_zero_attempts :
    remoteFileOp (fun _ _ => true) (fun _ _ => false) "file upload".data "clip".data
        [PathDescriptor.Local "/a".data] 0
      = Except.error (remoteFileOpErrMsg "file upload".data "clip".data
          [PathDescriptor.Local "/a".data])
    ∧ remoteFileOpInvocations (fun _ _ => true) (fun _ _ => false) 0 0
        [PathDescriptor.Local "/a".data] = 0 :=
  (c3_remote_file_op_success_iff_drained (fun _ _ => true) (fun _ _ => false)
    "file upload".data "clip".data [PathDescriptor.Local "/a".data] 0).2.2 rfl
    (by decide)

/-- C4, counterexample: the claim says a successful upload run on a review
whose type is not `End` leaves `retry_attempt` unchanged.  In the code a
successful run on an `Update` review concludes `NotDone`, and the loop
increments `retry_attempt` on every `NotDone`: starting from
`retry_attempt = 0`, the iteration continues with `retry_attempt = 1`, not
`0`. -/
theorem c4_counterexample_success_increments_retry :
    taskLoopStep 60 ⟨TypeField.Update, false, 0⟩
        (TaskLoopEvent.reviewArrived TypeField.Update true)
      = TaskLoopStep.continueLoop ⟨TypeField.Update, true, 1⟩
    ∧ taskLoopStep 60 ⟨TypeField.Update, false, 0⟩
        (TaskLoopEvent.reviewArrived TypeField.Update true)
      ≠ TaskLoopStep.continueLoop ⟨TypeField.Update, true, 0⟩ := by
  exact ⟨rfl, by decide⟩

/-- C4, amended: in the event loop, `retry_attempt` is incremented exactly
when the upload run concludes `NotDone` — on an error, and also on a
successful run whose (new) current review type is not `End`, which
continues the loop with `retry_attempt + 1`; a successful run whose
current review type is `End` exits the loop with conclusion `Done` (and
flipped `alternative_upload`), and the timer arm with an exhausted budget
exits `NotDone` without running the upload. -/
theorem c4_amended_retry_increment_on_notdone (maxRetryAttempts : Nat) (st : TaskState)
    (reviewType : TypeField) :
    taskLoopStep maxRetryAttempts st (TaskLoopEvent.reviewArrived reviewType true)
      = (if reviewType = TypeField.End then
          TaskLoopStep.exitLoop
            { st with currentReviewType := reviewType,
                      alternativeUpload := !st.alternativeUpload } UploadConclusion.Done
         else
          TaskLoopStep.continueLoop
            { st with currentReviewType := reviewType,
                      alternativeUpload := !st.alternativeUpload,
                      retryAttempt := st.retryAttempt + 1 })
    ∧ taskLoopStep maxRetryAttempts st (TaskLoopEvent.reviewArrived reviewType false)
      = TaskLoopStep.continueLoop
          { st with currentReviewType := reviewType, retryAttempt := st.retryAttempt + 1 }
    ∧ taskLoopStep maxRetryAttempts st (TaskLoopEvent.retryTimerFired true)
      = (if st.retryAttempt ≥ maxRetryAttempts then
          TaskLoopStep.exitLoop st UploadConclusion.NotDone
         else if st.currentReviewType = TypeField.End then
          TaskLoopStep.exitLoop
            { st with alternativeUpload := !st.alternativeUpload } UploadConclusion.Done
         else
          TaskLoopStep.continueLoop
            { st with alternativeUpload := !st.alternativeUpload,
                      retryAttempt := st.retryAttempt + 1 })
    ∧ taskLoopStep maxRetryAttempts st (TaskLoopEvent.retryTimerFired false)
      = (if st.retryAttempt ≥ maxRetryAttempts then
          TaskLoopStep.exitLoop st UploadConclusion.NotDone
         else
          TaskLoopStep.continueLoop { st with retryAttempt := st.retryAttempt + 1 }) := by
  refine ⟨?_, ?_, ?_, ?_⟩
  · by_cases h : reviewType = TypeField.End <;>
      simp [taskLoopStep, runUpload, h]
  · simp [taskLoopStep, runUpload]
  · by_cases hb : st.retryAttempt ≥ maxRetryAttempts
    · simp [taskLoopStep, hb]
    · by_cases h : st.currentReviewType = TypeField.End <;>
        simp [taskLoopStep, runUpload, h, hb]
  · by_cases hb : st.retryAttempt ≥ maxRetryAttempts <;>
      simp [taskLoopStep, runUpload, hb]

/-- `register_review_update` preserves the handler invariant. -/
theorem registerReviewUpdate_inv {st : HandlerState} (h : handlerInv st) (id : String) :
    handlerInv (registerReviewUpdate st id) := by
  obtain ⟨heq, hnd⟩ := h
  unfold registerReviewUpdate
  by_cases hmem : id ∈ st.tasksCommunicators
  · simp only [if_pos hmem]
    exact ⟨heq, hnd⟩
  · simp only [if_neg hmem]
    refine ⟨by rw [heq], ?_⟩
    have hnr : id ∉ st.runningTasks := by rw [← heq]; exact hmem
    simp [List.nodup_append, hnd, hnr]

/-- A task completion preserves the handler invariant. -/
theorem onTaskCompletion_inv {st : HandlerState} (h : handlerInv st) (id : String) :
    handlerInv (onTaskCompletion st id) := by
  obtain ⟨heq, hnd⟩ := h
  refine ⟨?_, ?_⟩
  · show st.tasksCommunicators.erase id = st.runningTasks.erase id
    rw [heq]
  · show (st.runningTasks.erase id).Nodup
    exact hnd.erase id

/-- The `run` loop preserves the handler invariant along any event trace. -/
theorem handlerRun_inv (evs : List HandlerEvent) :
    ∀ st : HandlerState, handlerInv st → handlerInv (handlerRun st evs) := by
  induction evs with
  | nil => intro st h; exact h
  | cons ev rest ih =>
    intro st h
    show handlerInv (if st.stopped then st else _)
    by_cases hs : st.stopped
    · simpa [hs] using h
    · simp only [if_neg hs]
      cases ev with
      | cmdStop =>
        by_cases he : ({ st with stopped := true } : HandlerState).runningTasks.isEmpty
        · simpa [handlerRun, he] using (⟨h.1, h.2⟩ : handlerInv { st with stopped := true })
        · simpa [handlerRun, he] using
            ih { st with stopped := true } ⟨h.1, h.2⟩
      | cmdTask id => exact ih _ (registerReviewUpdate_inv h id)
      | cmdGetTaskCount => exact ih _ h
      | taskCompleted id =>
        by_cases he :
            ((onTaskCompletion st id).runningTasks.isEmpty && (onTaskCompletion st id).stopped)
        · simpa [handlerRun, he] using onTaskCompletion_inv h id
        · simpa [handlerRun, he] using ih _ (onTaskCompletion_inv h id)

/-- C5: along every event trace of the recordings handler, the tracking
map holds exactly the ids of the live tasks with no duplicates (so each
review id has at most one live task); a `Task` command whose id is already
tracked leaves the state unchanged (it is routed to the existing task, no
task is spawned); an already-tracked id survives every
`register_review_update`; and an id leaves the tracking map exactly
through the completion of its task. -/
theorem c5_at_most_one_task_per_review_id :
    (∀ evs : List HandlerEvent,
      (handlerRun initialHandlerState evs).tasksCommunicators
          = (handlerRun initialHandlerState evs).runningTasks
      ∧ (handlerRun initialHandlerState evs).runningTasks.Nodup)
    ∧ (∀ (st : HandlerState) (id : String),
        id ∈ st.tasksCommunicators → registerReviewUpdate st id = st)
    ∧ (∀ (st : HandlerState) (id x : String),
        x ∈ st.tasksCommunicators → x ∈ (registerReviewUpdate st id).tasksCommunicators)
    ∧ (∀ (st : HandlerState) (id x : String), st.tasksCommunicators.Nodup →
        (x ∈ (onTaskCompletion st id).tasksCommunicators ↔
          x ≠ id ∧ x ∈ st.tasksCommunicators)) := by
  refine ⟨?_, ?_, ?_, ?_⟩
  · intro evs
    exact handlerRun_inv evs initialHandlerState ⟨rfl, List.nodup_nil⟩
  · intro st id hmem
    unfold registerReviewUpdate
    simp [hmem]
  · intro st id x hmem
    unfold registerReviewUpdate
    by_cases hid : id ∈ st.tasksCommunicators
    · simpa [hid] using hmem
    · simp only [if_neg hid]
      exact List.mem_append_left _ hmem
  · intro st id x hnd
    show x ∈ st.tasksCommunicators.erase id ↔ _
    exact hnd.mem_erase_iff

/-- C5, witness: after spawning a task for id `"r42"`, the invariant holds
and a second `Task` for `"r42"` does not change the handler state. -/
theorem c5_witness_single_task :
    ((handlerRun initialHandlerState [HandlerEvent.cmdTask "r42"]).tasksCommunicators
        = (handlerRun initialHandlerState [HandlerEvent.cmdTask "r42"]).runningTasks
      ∧ (handlerRun initialHandlerState [HandlerEvent.cmdTask "r42"]).runningTasks.Nodup)
    ∧ registerReviewUpdate ⟨false, ["r42"], ["r42"]⟩ "r42" = ⟨false, ["r42"], ["r42"]⟩ :=
  ⟨c5_at_most_one_task_per_review_id.1 [HandlerEvent.cmdTask "r42"],
   c5_at_most_one_task_per_review_id.2.1 ⟨false, ["r42"], ["r42"]⟩ "r42" (by simp)⟩

/-- The stack shape maintained by `simplify_virtual_path`: normal
components (most recently pushed first) followed by `..` components. -/
def StackShape (stack : List PathComponent) : Prop :=
  ∃ ns ps, stack = ns ++ ps
    ∧ (∀ c ∈ ns, isNormalComp c = true)
    ∧ (∀ c ∈ ps, c = PathComponent.ParentDir)

/-- A stack with a normal component on top pops to a well-shaped stack. -/
theorem shape_pop_normal {n : String} {stackRest ns ps : List PathComponent}
    (hstack : PathComponent.Normal n :: stackRest = ns ++ ps)
    (hns : ∀ c ∈ ns, isNormalComp c = true)
    (hps : ∀ c ∈ ps, c = PathComponent.ParentDir) :
    StackShape stackRest := by
  cases ns with
  | nil =>
    exfalso
    simp only [List.nil_append] at hstack
    have hmem : PathComponent.Normal n ∈ ps := by
      rw [← hstack]
      exact List.mem_cons_self _ _
    cases hps _ hmem
  | cons m ns' =>
    simp only [List.cons_append, List.cons.injEq] at hstack
    refine ⟨ns', ps, hstack.2, ?_, hps⟩
    intro c hc
    exact hns c (List.mem_cons_of_mem _ hc)

/-- A well-shaped stack with a non-normal component on top consists of
`..` components only. -/
theorem shape_all_parent {last : PathComponent} {stackRest ns ps : List PathComponent}
    (hstack : last :: stackRest = ns ++ ps)
    (hlast : isNormalComp last = false)
    (hns : ∀ c ∈ ns, isNormalComp c = true)
    (hps : ∀ c ∈ ps, c = PathComponent.ParentDir) :
    ∀ c ∈ last :: stackRest, c = PathComponent.ParentDir := by
  cases ns with
  | nil =>
    simp only [List.nil_append] at hstack
    rw [hstack]
    exact hps
  | cons m ns' =>
    exfalso
    simp only [List.cons_append, List.cons.injEq] at hstack
    have h := hns m (List.mem_cons_self _ _)
    rw [← hstack.1] at h
    rw [h] at hlast
    cases hlast

/-- On a relative path the loop never touches `result` and preserves the
stack shape. -/
theorem svpLoop_relative (todo : List PathComponent) :
    ∀ result stack, PathComponent.RootDir ∉ todo → StackShape stack →
      (svpLoop false result stack todo).1 = result
      ∧ StackShape (svpLoop false result stack todo).2 := by
  induction todo with
  | nil => intro result stack _ hs; exact ⟨rfl, hs⟩
  | cons comp rest ih =>
    intro result stack hroot hs
    have hrootrest : PathComponent.RootDir ∉ rest := fun h => hroot (List.mem_cons_of_mem _ h)
    obtain ⟨ns, ps, hstack, hns, hps⟩ := hs
    cases comp with
    | RootDir => exact absurd (List.mem_cons_self _ _) hroot
    | CurDir => exact ih result stack hrootrest ⟨ns, ps, hstack, hns, hps⟩
    | ParentDir =>
      cases stack with
      | nil =>
        refine ih result [PathComponent.ParentDir] hrootrest
          ⟨[], [PathComponent.ParentDir], rfl, ?_, ?_⟩
        · intro c hc; cases hc
        · intro c hc; exact List.mem_singleton.mp hc
      | cons last stackRest =>
        cases last with
        | Normal n =>
          exact ih result stackRest hrootrest (shape_pop_normal hstack hns hps)
        | ParentDir =>
          have hall := shape_all_parent hstack rfl hns hps
          refine ih result (PathComponent.ParentDir :: PathComponent.ParentDir :: stackRest)
            hrootrest ⟨[], _, rfl, ?_, ?_⟩
          · intro c hc; cases hc
          · intro c hc
            rcases List.mem_cons.mp hc with h1 | h2
            · exact h1
            · exact hall c h2
        | RootDir =>
          exact absurd (shape_all_parent hstack rfl hns hps _ (List.mem_cons_self _ _))
            (by decide)
        | CurDir =>
          exact absurd (shape_all_parent hstack rfl hns hps _ (List.mem_cons_self _ _))
            (by decide)
    | Normal name =>
      refine ih result (PathComponent.Normal name :: stack) hrootrest
        ⟨PathComponent.Normal name :: ns, ps, by rw [hstack, List.cons_append], ?_, hps⟩
      intro c hc
      rcases List.mem_cons.mp hc with h1 | h2
      · rw [h1]; rfl
      · exact hns c h2

/-- On an absolute path (after the leading root) the loop never touches
`result` and keeps the stack free of `..` components. -/
theorem svpLoop_absolute (todo : List PathComponent) :
    ∀ result stack, PathComponent.RootDir ∉ todo →
      (∀ c ∈ stack, isNormalComp c = true) →
      (svpLoop true result stack todo).1 = result
      ∧ (∀ c ∈ (svpLoop true result stack todo).2, isNormalComp c = true) := by
  induction todo with
  | nil => intro result stack _ hs; exact ⟨rfl, hs⟩
  | cons comp rest ih =>
    intro result stack hroot hs
    have hrootrest : PathComponent.RootDir ∉ rest := fun h => hroot (List.mem_cons_of_mem _ h)
    cases comp with
    | RootDir => exact absurd (List.mem_cons_self _ _) hroot
    | CurDir => exact ih result stack hrootrest hs
    | ParentDir =>
      cases stack with
      | nil =>
        refine ih result [] hrootrest ?_
        intro c hc; cases hc
      | cons last stackRest =>
        have hn : isNormalComp last = true := hs last (List.mem_cons_self _ _)
        cases last with
        | Normal name =>
          refine ih result stackRest hrootrest ?_
          intro c hc; exact hs c (List.mem_cons_of_mem _ hc)
        | RootDir => exact absurd hn (by decide)
        | CurDir => exact absurd hn (by decide)
        | ParentDir => exact absurd hn (by decide)
    | Normal name =>
      refine ih result (PathComponent.Normal name :: stack) hrootrest ?_
      intro c hc
      rcases List.mem_cons.mp hc with h1 | h2
      · rw [h1]; rfl
      · exact hs c h2

/-- `split_once` finds the first separator after a separator-free
prefix. -/
theorem splitOnceList_append_sep (sep : Char) (pre rest : List Char) (hpre : sep ∉ pre) :
    splitOnceList sep (pre ++ sep :: rest) = some (pre, rest) := by
  induction pre with
  | nil => simp [splitOnceList]
  | cons c cs ih =>
    have hc : ¬(c = sep) := fun hh => hpre (hh ▸ List.mem_cons_self _ _)
    have hcs : sep ∉ cs := fun hh => hpre (List.mem_cons_of_mem _ hh)
    simp only [List.cons_append, splitOnceList, if_neg hc, List.append_eq]
    rw [ih hcs]

/-- `split` on a separator-free string yields that single piece. -/
theorem splitList_not_mem (sep : Char) (l : List Char) (h : sep ∉ l) :
    splitList sep l = [l] := by
  induction l with
  | nil => rfl
  | cons c cs ih =>
    have hc : ¬(c = sep) := fun hh => h (hh ▸ List.mem_cons_self _ _)
    have hcs : sep ∉ cs := fun hh => h (List.mem_cons_of_mem _ hh)
    simp only [splitList, if_neg hc, ih hcs]

/-- `split` peels a separator-free piece off the front. -/
theorem splitList_append_sep (sep : Char) (a b : List Char) (ha : sep ∉ a) :
    splitList sep (a ++ sep :: b) = a :: splitList sep b := by
  induction a with
  | nil => simp [splitList]
  | cons c cs ih =>
    have hc : ¬(c = sep) := fun hh => ha (hh ▸ List.mem_cons_self _ _)
    have hcs : sep ∉ cs := fun hh => ha (List.mem_cons_of_mem _ hh)
    simp only [List.cons_append, splitList, if_neg hc, List.append_eq]
    rw [ih hcs]

/-- A list unchanged by `dropWhile` does not start with a matching
element. -/
theorem dropWhile_self_head_false {p : Char → Bool} {c : Char} {l : List Char}
    (h : List.dropWhile p (c :: l) = c :: l) : p c = false := by
  by_cases hp : p c = true
  · exfalso
    rw [List.dropWhile_cons_of_pos hp] at h
    have hle := (List.dropWhile_sublist (l := l) p).length_le
    have hlen := congrArg List.length h
    simp only [List.length_cons] at hlen
    omega
  · simpa using hp

/-- Left trimming keeps a string that starts with non-whitespace. -/
theorem trimLeftList_cons_of_not_ws {c : Char} (l : List Char) (hc : c.isWhitespace = false) :
    trimLeftList (c :: l) = c :: l := by
  simp [trimLeftList, List.dropWhile_cons, hc]

/-- Right trimming distributes over an append of right-trimmed pieces. -/
theorem trimRightList_append_keep {xs v : List Char} (hxs : trimRightList xs = xs)
    (hv : trimRightList v = v) : trimRightList (xs ++ v) = xs ++ v := by
  have hxs' : List.dropWhile Char.isWhitespace xs.reverse = xs.reverse := by
    have h2 := congrArg List.reverse hxs
    simpa [trimRightList] using h2
  have hv' : List.dropWhile Char.isWhitespace v.reverse = v.reverse := by
    have h2 := congrArg List.reverse hv
    simpa [trimRightList] using h2
  unfold trimRightList
  rw [List.reverse_append]
  cases hvr : v.reverse with
  | nil =>
    have hvnil : v = [] := by
      have h2 := congrArg List.reverse hvr
      simpa using h2
    subst hvnil
    simp [hxs']
  | cons c vr' =>
    have hc : Char.isWhitespace c = false := by
      rw [hvr] at hv'
      exact dropWhile_self_head_false hv'
    have hv2 : v = vr'.reverse ++ [c] := by
      have h2 := congrArg List.reverse hvr
      simpa using h2
    rw [List.cons_append, List.dropWhile_cons_of_neg (by simp [hc])]
    rw [hv2]
    simp [List.reverse_append, List.append_assoc]

/-- Trimming keeps a `key=value` part whose key starts with non-whitespace
and whose value has no trailing whitespace. -/
theorem trimList_keyval {c : Char} {key' : List Char} (v : List Char)
    (hc : c.isWhitespace = false)
    (hkeyr : trimRightList (c :: key') = c :: key')
    (hv : trimRightList v = v) :
    trimList ((c :: key') ++ v) = (c :: key') ++ v := by
  unfold trimList
  rw [List.cons_append, trimLeftList_cons_of_not_ws _ hc, ← List.cons_append,
    trimRightList_append_keep hkeyr hv]

/-- One accepted `key=value` part of the key-value loop. -/
theorem parseKeyValsLoop_cons (allowed : List (List Char)) (key v : List Char)
    (parts : List (List Char)) (acc : List (List Char × List Char))
    (htrim : trimList (key ++ '=' :: v) = key ++ '=' :: v)
    (hkey : '=' ∉ key)
    (hascii : isAsciiList key = true)
    (hlower : asciiLowerList key = key)
    (hdup : (acc.map Prod.fst).contains key = false)
    (hallowed : allowed.contains key = true) :
    parseKeyValsLoop allowed ((key ++ '=' :: v) :: parts) acc
      = parseKeyValsLoop allowed parts (acc ++ [(key, v)]) := by
  simp only [parseKeyValsLoop, htrim, splitOnceList_append_sep '=' key v hkey, hascii, hlower,
    hdup, hallowed, Bool.not_true, Bool.false_eq_true, if_false]

/-- Unfolding `fromStr` once its scheme split is known. -/
theorem fromStr_eq_scheme {input destType destData : List Char}
    (h : splitOnceList ':' input = some (destType, destData)) :
    fromStr input = fromStrScheme destType destData := by
  unfold fromStr
  rw [h]

/-- The `local` branch of the scheme dispatch. -/
theorem fromStrScheme_local_eval (destData : List Char) :
    fromStrScheme "local".data destData
      = (match parseKeyValsString destData ["path".data] [] with
         | Except.error e => Except.error e
         | Except.ok keyVals =>
           match keyVals.lookup "path".data with
           | some path => Except.ok (PathDescriptor.Local path)
           | none => Except.error "Must exist since verified in parser".data) := rfl

/-- The `sftp` branch of the scheme dispatch. -/
theorem fromStrScheme_sftp_eval (destData : List Char) :
    fromStrScheme "sftp".data destData
      = (match parseKeyValsString destData sftpRequiredKeys [] with
         | Except.error e => Except.error e
         | Except.ok keyVals =>
           match keyVals.lookup "username".data, keyVals.lookup "host".data,
               keyVals.lookup "remote-path".data, keyVals.lookup "identity".data with
           | some username, some host, some remotePath, some identity =>
             (match splitOnceList ':' host with
              | some (_, port) =>
                (match parseU16 port with
                 | some _ =>
                   Except.ok
                     (PathDescriptor.Sftp username host remotePath
                       (IdentitySource.OnDisk identity))
                 | none => Except.error ("Failed to parse port: ".data ++ port))
              | none =>
                Except.ok
                  (PathDescriptor.Sftp username host remotePath
                    (IdentitySource.OnDisk identity)))
           | _, _, _, _ => Except.error "Must exist from parser".data) := rfl

/-- The port validation accepts a host that satisfies the port
condition. -/
theorem sftp_port_branch (u hst rp i : List Char)
    (hport : ∀ hostName port, splitOnceList ':' hst = some (hostName, port) →
      (parseU16 port).isSome = true) :
    (match splitOnceList ':' hst with
     | some (_, port) =>
       (match parseU16 port with
        | some _ =>
          Except.ok (PathDescriptor.Sftp u hst rp (IdentitySource.OnDisk i))
        | none => Except.error ("Failed to parse port: ".data ++ port))
     | none => Except.ok (PathDescriptor.Sftp u hst rp (IdentitySource.OnDisk i)))
      = Except.ok (PathDescriptor.Sftp u hst rp (IdentitySource.OnDisk i)) := by
  cases hsp : splitOnceList ':' hst with
  | none => rfl
  | some pr =>
    obtain ⟨hostName, port⟩ := pr
    have hsome := hport hostName port hsp
    show (match parseU16 port with
          | some _ =>
            Except.ok (PathDescriptor.Sftp u hst rp (IdentitySource.OnDisk i))
          | none => Except.error ("Failed to parse port: ".data ++ port))
        = Except.ok (PathDescriptor.Sftp u hst rp (IdentitySource.OnDisk i))
    cases hpu : parseU16 port with
    | none =>
      rw [hpu] at hsome
      cases hsome
    | some val => rfl

/-- C7, counterexample: the claim includes descriptors whose identity is
inline in memory, but `IdentitySource::display` redacts inline material to
`<in-memory>`, and parsing the displayed string yields an `OnDisk`
identity with the literal path `<in-memory>`: the round trip loses the
inline secret and does not return the original descriptor. -/
theorem c7_counterexample_inline_identity :
    fromStr (displayPathDescriptor
        (PathDescriptor.Sftp "user".data "example.com".data "/data".data
          (IdentitySource.InMemory "secret-key".data)))
      = Except.ok (PathDescriptor.Sftp "user".data "example.com".data "/data".data
          (IdentitySource.OnDisk "<in-memory>".data))
    ∧ PathDescriptor.Sftp "user".data "example.com".data "/data".data
          (IdentitySource.OnDisk "<in-memory>".data)
        ≠ PathDescriptor.Sftp "user".data "example.com".data "/data".data
          (IdentitySource.InMemory "secret-key".data) := by
  exact ⟨rfl, by decide⟩

/-- C7, amended: `parse(display(d)) = d` holds for every descriptor whose
identity is on disk (inline identities are redacted by display, see the
counterexample), whose displayed fields contain no `;` and no trailing
whitespace, and whose host, when it contains `:`, carries a valid `u16`
port after the first `:`. -/
theorem c7_amended_round_trip (d : PathDescriptor)
    (hdisk : descriptorIdentityOnDisk d)
    (hclean : descriptorFieldsClean d)
    (hport : descriptorHostPortOk d) :
    fromStr (displayPathDescriptor d) = Except.ok d := by
  cases d with
  | Local p =>
    obtain ⟨hp1, hp2⟩ := hclean
    have hsplit0 : splitOnceList ':' (displayPathDescriptor (PathDescriptor.Local p))
        = some ("local".data, "path=".data ++ p) :=
      splitOnceList_append_sep ':' "local".data ("path=".data ++ p) (by decide)
    rw [fromStr_eq_scheme hsplit0, fromStrScheme_local_eval]
    have hnotsemi : ';' ∉ "path=".data ++ p := by
      intro hm
      rcases List.mem_append.mp hm with hm | hm
      · revert hm; decide
      · exact hp1 hm
    have htrim : trimList ("path=".data ++ p) = "path=".data ++ p :=
      @trimList_keyval 'p' "ath=".data p (by decide) (by decide) hp2
    have hsl : splitList ';' ("path=".data ++ p) = [("path=".data ++ p)] :=
      splitList_not_mem ';' _ hnotsemi
    have hloop : parseKeyValsLoop (["path".data] ++ []) (("path=".data ++ p) :: []) []
        = parseKeyValsLoop (["path".data] ++ []) [] [("path".data, p)] :=
      parseKeyValsLoop_cons (["path".data] ++ []) "path".data p [] [] htrim (by decide)
        (by decide) (by decide) rfl (by decide)
    have hkvs : parseKeyValsString ("path=".data ++ p) ["path".data] []
        = Except.ok [("path".data, p)] := by
      unfold parseKeyValsString
      rw [hsl, hloop]
      rfl
    rw [hkvs]
    rfl
  | Sftp u hst rp ident =>
    cases ident with
    | InMemory s => exact hdisk.elim
    | OnDisk i =>
      obtain ⟨⟨hu1, hu2⟩, ⟨hh1, hh2⟩, ⟨hr1, hr2⟩, ⟨hi1, hi2⟩⟩ := hclean
      have hd : displayPathDescriptor
          (PathDescriptor.Sftp u hst rp (IdentitySource.OnDisk i))
          = "sftp".data ++ ':' ::
            (("username=".data ++ u) ++ ';' ::
              (("host=".data ++ hst) ++ ';' ::
                (("remote-path=".data ++ rp) ++ ';' :: ("identity=".data ++ i)))) := by
        simp only [displayPathDescriptor, identityDisplay, List.append_assoc,
          List.cons_append]
        rfl
      have hsplit0 : splitOnceList ':'
          (displayPathDescriptor (PathDescriptor.Sftp u hst rp (IdentitySource.OnDisk i)))
          = some ("sftp".data,
            ("username=".data ++ u) ++ ';' ::
              (("host=".data ++ hst) ++ ';' ::
                (("remote-path=".data ++ rp) ++ ';' :: ("identity=".data ++ i)))) := by
        rw [hd]
        exact splitOnceList_append_sep ':' "sftp".data _ (by decide)
      rw [fromStr_eq_scheme hsplit0, fromStrScheme_sftp_eval]
      have hnu : ';' ∉ "username=".data ++ u := by
        intro hm
        rcases List.mem_append.mp hm with hm | hm
        · revert hm; decide
        · exact hu1 hm
      have hnh : ';' ∉ "host=".data ++ hst := by
        intro hm
        rcases List.mem_append.mp hm with hm | hm
        · revert hm; decide
        · exact hh1 hm
      have hnr : ';' ∉ "remote-path=".data ++ rp := by
        intro hm
        rcases List.mem_append.mp hm with hm | hm
        · revert hm; decide
        · exact hr1 hm
      have hni : ';' ∉ "identity=".data ++ i := by
        intro hm
        rcases List.mem_append.mp hm with hm | hm
        · revert hm; decide
        · exact hi1 hm
      have hsl : splitList ';'
          (("username=".data ++ u) ++ ';' ::
            (("host=".data ++ hst) ++ ';' ::
              (("remote-path=".data ++ rp) ++ ';' :: ("identity=".data ++ i))))
          = [("username=".data ++ u), ("host=".data ++ hst), ("remote-path=".data ++ rp),
             ("identity=".data ++ i)] := by
        rw [splitList_append_sep ';' _ _ hnu, splitList_append_sep ';' _ _ hnh,
          splitList_append_sep ';' _ _ hnr, splitList_not_mem ';' _ hni]
      have ht1 : trimList ("username=".data ++ u) = "username=".data ++ u :=
        @trimList_keyval 'u' "sername=".data u (by decide) (by decide) hu2
      have ht2 : trimList ("host=".data ++ hst) = "host=".data ++ hst :=
        @trimList_keyval 'h' "ost=".data hst (by decide) (by decide) hh2
      have ht3 : trimList ("remote-path=".data ++ rp) = "remote-path=".data ++ rp :=
        @trimList_keyval 'r' "emote-path=".data rp (by decide) (by decide) hr2
      have ht4 : trimList ("identity=".data ++ i) = "identity=".data ++ i :=
        @trimList_keyval 'i' "dentity=".data i (by decide) (by decide) hi2
      have hl1 : parseKeyValsLoop (sftpRequiredKeys ++ [])
          [("username=".data ++ u), ("host=".data ++ hst), ("remote-path=".data ++ rp),
            ("identity=".data ++ i)] []
          = parseKeyValsLoop (sftpRequiredKeys ++ [])
              [("host=".data ++ hst), ("remote-path=".data ++ rp), ("identity=".data ++ i)]
              [("username".data, u)] :=
        parseKeyValsLoop_cons _ "username".data u _ _ ht1 (by decide) (by decide) (by decide)
          rfl (by decide)
      have hl2 : parseKeyValsLoop (sftpRequiredKeys ++ [])
          [("host=".data ++ hst), ("remote-path=".data ++ rp), ("identity=".data ++ i)]
          [("username".data, u)]
          = parseKeyValsLoop (sftpRequiredKeys ++ [])
              [("remote-path=".data ++ rp), ("identity=".data ++ i)]
              [("username".data, u), ("host".data, hst)] :=
        parseKeyValsLoop_cons _ "host".data hst _ _ ht2 (by decide) (by decide) (by decide)
          rfl (by decide)
      have hl3 : parseKeyValsLoop (sftpRequiredKeys ++ [])
          [("remote-path=".data ++ rp), ("identity=".data ++ i)]
          [("username".data, u), ("host".data, hst)]
          = parseKeyValsLoop (sftpRequiredKeys ++ []) [("identity=".data ++ i)]
              [("username".data, u), ("host".data, hst), ("remote-path".data, rp)] :=
        parseKeyValsLoop_cons _ "remote-path".data rp _ _ ht3 (by decide) (by decide)
          (by decide) rfl (by decide)
      have hl4 : parseKeyValsLoop (sftpRequiredKeys ++ []) [("identity=".data ++ i)]
          [("username".data, u), ("host".data, hst), ("remote-path".data, rp)]
          = parseKeyValsLoop (sftpRequiredKeys ++ []) []
              [("username".data, u), ("host".data, hst), ("remote-path".data, rp),
                ("identity".data, i)] :=
        parseKeyValsLoop_cons _ "identity".data i _ _ ht4 (by decide) (by decide) (by decide)
          rfl (by decide)
      have hkvs : parseKeyValsString
          (("username=".data ++ u) ++ ';' ::
            (("host=".data ++ hst) ++ ';' ::
              (("remote-path=".data ++ rp) ++ ';' :: ("identity=".data ++ i))))
          sftpRequiredKeys []
          = Except.ok [("username".data, u), ("host".data, hst), ("remote-path".data, rp),
              ("identity".data, i)] := by
        unfold parseKeyValsString
        rw [hsl, hl1, hl2, hl3, hl4]
        rfl
      rw [hkvs]
      exact sftp_port_branch u hst rp i hport

/-- C7, witness: a concrete sftp descriptor with an on-disk identity and a
host with a valid port round-trips through display and parse. -/
theorem c7_witness_sftp_round_trip :
    fromStr (displayPathDescriptor (PathDescriptor.Sftp "user".data "example.com:8888".data
        "/home/user2/x.txt".data (IdentitySource.OnDisk "/home/user/key.pem".data)))
      = Except.ok (PathDescriptor.Sftp "user".data "example.com:8888".data
          "/home/user2/x.txt".data (IdentitySource.OnDisk "/home/user/key.pem".data)) := by
  refine c7_amended_round_trip _ trivial ⟨⟨?_, ?_⟩, ⟨?_, ?_⟩, ⟨?_, ?_⟩, ⟨?_, ?_⟩⟩ ?_
  · decide
  · decide
  · decide
  · decide
  · decide
  · decide
  · decide
  · decide
  · intro hostName port hsp
    have hev : splitOnceList ':' "example.com:8888".data
        = some ("example.com".data, "8888".data) := rfl
    rw [hev] at hsp
    cases hsp
    rfl

/-- C8: `simplify_virtual_path` on a relative path (one with no root
component) yields some leading `..` components followed only by normal
components — so no `.` components at all and no `..` after a normal
component; on an absolute path (a root followed by root-free components)
it yields the root followed only by normal components, so the result
never escapes the root. -/
theorem c8_simplify_virtual_path_shape (comps : List PathComponent) :
    (PathComponent.RootDir ∉ comps →
      ∃ k ns, simplifyVirtualPath comps = List.replicate k PathComponent.ParentDir ++ ns
        ∧ ∀ c ∈ ns, isNormalComp c = true)
    ∧ (∀ tail, comps = PathComponent.RootDir :: tail → PathComponent.RootDir ∉ tail →
      ∃ ns, simplifyVirtualPath comps = PathComponent.RootDir :: ns
        ∧ ∀ c ∈ ns, isNormalComp c = true) := by
  constructor
  · intro hroot
    have habs : isAbsoluteComps comps = false := by
      cases hc : comps with
      | nil => rfl
      | cons c cs =>
        cases c with
        | RootDir => exact absurd (hc ▸ List.mem_cons_self PathComponent.RootDir cs) hroot
        | CurDir => rfl
        | ParentDir => rfl
        | Normal name => rfl
    have hshape0 : StackShape [] := by
      refine ⟨[], [], rfl, ?_, ?_⟩ <;> (intro c hc; cases hc)
    have h := svpLoop_relative comps [] [] hroot hshape0
    obtain ⟨ns, ps, hstack, hns, hps⟩ := h.2
    refine ⟨ps.length, ns.reverse, ?_, ?_⟩
    · show (svpLoop (isAbsoluteComps comps) [] [] comps).1
          ++ (svpLoop (isAbsoluteComps comps) [] [] comps).2.reverse = _
      rw [habs, h.1, hstack]
      have hpsrep : ps.reverse = List.replicate ps.length PathComponent.ParentDir := by
        conv_lhs => rw [List.eq_replicate_of_mem hps]
        simp
      rw [List.reverse_append, hpsrep]
      simp
    · intro c hc
      exact hns c (List.mem_reverse.mp hc)
  · intro tail hcomps hroot
    subst hcomps
    have habs : isAbsoluteComps (PathComponent.RootDir :: tail) = true := rfl
    have h := svpLoop_absolute tail [PathComponent.RootDir] [] hroot (by intro c hc; cases hc)
    refine ⟨(svpLoop true [PathComponent.RootDir] [] tail).2.reverse, ?_, ?_⟩
    · show (svpLoop (isAbsoluteComps (PathComponent.RootDir :: tail)) [] []
            (PathComponent.RootDir :: tail)).1
          ++ (svpLoop (isAbsoluteComps (PathComponent.RootDir :: tail)) [] []
            (PathComponent.RootDir :: tail)).2.reverse = _
      rw [habs]
      show (svpLoop true [PathComponent.RootDir] [] tail).1
          ++ (svpLoop true [PathComponent.RootDir] [] tail).2.reverse = _
      rw [h.1]
      rfl
    · intro c hc
      exact h.2 c (List.mem_reverse.mp hc)

/-- C8, witness: the relative path `../​./a/../b` simplifies to a shape
with leading `..`s then normal components, and the absolute path
`/a/../../b` simplifies to the root followed by normal components. -/
theorem c8_witness_concrete_paths :
    (∃ k ns,
      simplifyVirtualPath [PathComponent.ParentDir, PathComponent.CurDir,
          PathComponent.Normal "a", PathComponent.ParentDir, PathComponent.Normal "b"]
        = List.replicate k PathComponent.ParentDir ++ ns
      ∧ ∀ c ∈ ns, isNormalComp c = true)
    ∧ (∃ ns,
      simplifyVirtualPath [PathComponent.RootDir, PathComponent.Normal "a",
          PathComponent.ParentDir, PathComponent.ParentDir, PathComponent.Normal "b"]
        = PathComponent.RootDir :: ns
      ∧ ∀ c ∈ ns, isNormalComp c = true) :=
  ⟨(c8_simplify_virtual_path_shape _).1 (by decide),
   (c8_simplify_virtual_path_shape _).2
     [PathComponent.Normal "a", PathComponent.ParentDir, PathComponent.ParentDir,
       PathComponent.Normal "b"] rfl (by decide)⟩

/-- C9: the claim states that a failure of the upload-to-store step ends
the upload process with the `RecordingUpload` error kind.  In the code the
`UploadToStore` arm wraps its failure in `DeletingAltFile` (and the
`DeleteTheAlternative` arm wraps its failure in `RecordingUpload`): with
the API succeeding and the store upload failing, the run ends with
`DeletingAltFile`, not `RecordingUpload`. -/
theorem c9_upload_failure_not_recording_upload_kind :
    reviewUploadStart "id-abcdefg" c9FailingEnv
      = Except.error (ReviewUploadError.DeletingAltFile "upload to store failed")
    ∧ isRecordingUploadError (reviewUploadStart "id-abcdefg" c9FailingEnv) = false :=
  ⟨rfl, rfl⟩

/-- C6: the claim states that after `Stop` arrives while `running_tasks`
is non-empty, the run loop keeps draining until every spawned task is
joined.  In the code the loop head is `while !self.stopped`, so once the
`Stop` arm sets the flag (and skips its `break` because tasks remain) the
loop exits at the next head check: with the trace "spawn a task for
`r42`, then `Stop`, then the task completes", `run` returns at the `Stop`
command with the task still unjoined, and the completion event is never
processed. -/
theorem c6_stop_exits_without_draining :
    handlerRun initialHandlerState
        [HandlerEvent.cmdTask "r42", HandlerEvent.cmdStop, HandlerEvent.taskCompleted "r42"]
      = ⟨true, ["r42"], ["r42"]⟩
    ∧ (handlerRun initialHandlerState
        [HandlerEvent.cmdTask "r42", HandlerEvent.cmdStop,
          HandlerEvent.taskCompleted "r42"]).runningTasks ≠ [] := by
  exact ⟨rfl, by decide⟩

end FrigateSnapSync
